import Mathlib

/-!
Verification development for the convertible-bond binomial valuation engine
of src/zz.py.

The engine models the issuer's stock as a recombining binomial lattice and
values the bond by backward induction.  Two entry points exist:

* `calculate_cb_value` (zz.py lines 4-65): plain engine with a ramp-shaped
  bond floor `pure_bond_value / steps * i`;
* `calculate_cb_with_reset` (zz.py lines 86-156): adds a probabilistic
  downward conversion-price reset and uses an interpolated bond floor
  `pure_bond_value + (redemption_price - pure_bond_value) * (1 - i/steps)`.

The numeric core is embedded over an arbitrary `LinearOrderedField` so that
the backward induction can be instantiated at `ℚ` (for concrete evaluation)
and at `ℝ` (for the top-level functions, whose lattice parameters
`u = exp(sigma*sqrt(dt))`, `d = 1/u`, `p = (exp(r*dt)-d)/(u-d)`,
`df = exp(-r*dt)` are computed with the real exponential, exactly as the
source computes them with `np.exp`).  The per-step value vector of numpy is
embedded as a `List`; the vectorised numpy expressions are written
elementwise.
-/

section EngineCore

variable {α : Type} [LinearOrderedField α]

/-- Stock price of node `j` at step `i`: `S0 * d^(i-j) * u^j`.  Source:
`st = S0 * d ** (np.arange(i, -1, -1)) * u ** (np.arange(0, i + 1, 1))`
(zz.py lines 29, 43, 109, 122); entry `j` of that array is
`S0 * d^(i-j) * u^j`. -/
def st_price (S0 u d : α) (i j : ℕ) : α := S0 * d ^ (i - j) * u ^ j

/-- Conversion value of a node with stock price `s`:
`s * conversion_ratio` with `conversion_ratio = 100 / K`
(zz.py lines 33-34, 46, 113-114, 133). -/
def conv_value (K s : α) : α := s * (100 / K)

/-- Terminal (maturity) value vector: entry `j` is
`max(st_j * (100/K), redemption_price)` for `j = 0..steps`
(zz.py lines 29-34 and 109-114). -/
def terminal_values (S0 K u d redemption_price : α) (steps : ℕ) : List α :=
  (List.range (steps + 1)).map fun j =>
    max (conv_value K (st_price S0 u d steps j)) redemption_price

/-- One risk-neutral expectation step, written elementwise: the source line
`values = (p * values[1:] + (1 - p) * values[:-1]) * df`
(zz.py lines 40 and 119) sends a vector `v` of length `n+1` to the vector of
length `n` whose entry `j` is `(p * v[j+1] + (1-p) * v[j]) * df`. -/
def expect_step (p df : α) : List α → List α
  | x :: y :: rest => ((p * y + (1 - p) * x) * df) :: expect_step p df (y :: rest)
  | _ => []

/-- Apply a per-node transformation `f` (taking the node index and the
current value) to every entry of a vector, starting at index `m`.  This is
the embedding of the `for j in range(len(values))` clause loops of
zz.py lines 49-63 and 131-154. -/
def overlay_vec (f : ℕ → α → α) : ℕ → List α → List α
  | _, [] => []
  | m, x :: xs => f m x :: overlay_vec f (m + 1) xs

/-- Ramp-shaped bond floor of `calculate_cb_value`:
`pure_bond_value / steps * i` (zz.py line 51). -/
def ramp_floor (pure_bond_value : α) (steps i : ℕ) : α :=
  pure_bond_value / (steps : α) * (i : α)

/-- Interpolated bond floor of `calculate_cb_with_reset`:
`pure_bond_value + (redemption_price - pure_bond_value) * (1 - i / steps)`
(zz.py lines 127-129). -/
def interp_floor (pure_bond_value redemption_price : α) (steps i : ℕ) : α :=
  pure_bond_value + (redemption_price - pure_bond_value) * (1 - (i : α) / (steps : α))

/-- Per-node clause pass of `calculate_cb_value` (zz.py lines 49-63), for the
node `j` of step `i` whose incoming (post-expectation) value is `x`:
bond floor, then conversion, then forced-call cap, then put floor. -/
def cb_node (S0 K pure_bond_value call_price put_price redemption_price u d : α)
    (steps i j : ℕ) (x : α) : α :=
  let s := st_price S0 u d i j
  let cv := conv_value K s
  let x1 := max x (ramp_floor pure_bond_value steps i)
  let x2 := max x1 cv
  let x3 := if call_price ≤ s then min x2 (max redemption_price cv) else x2
  if s ≤ put_price then max x3 put_price else x3

/-- Reset sub-step of `calculate_cb_with_reset` (zz.py lines 135-141): when
the stock price `s` is at or below `K * reset_threshold_pct`, compute the
candidate revised conversion price `k_new = max(s * 1.02, net_asset_val)`
and the post-reset value `v_after_reset = (100 / k_new * s) * 1.20`
(the 1.20 markup is hard-coded in the source), and blend only when
`v_after_reset` exceeds the current value. -/
def reset_adjust (K reset_threshold_pct p_reset net_asset_val s x : α) : α :=
  if s ≤ K * reset_threshold_pct then
    let k_new := max (s * (102 / 100)) net_asset_val
    let v_after_reset := 100 / k_new * s * (120 / 100)
    if x < v_after_reset then (1 - p_reset) * x + p_reset * v_after_reset else x
  else x

/-- Per-node clause pass of `calculate_cb_with_reset` (zz.py lines 131-154):
reset blend, then the joint floor `max(value, current_bond_floor, conv_val)`,
then forced-call cap, then put floor. -/
def cbr_node (S0 K pure_bond_value call_price put_price redemption_price
    reset_threshold_pct p_reset net_asset_val u d : α) (steps i j : ℕ) (x : α) : α :=
  let s := st_price S0 u d i j
  let cv := conv_value K s
  let x1 := reset_adjust K reset_threshold_pct p_reset net_asset_val s x
  let x2 := max (max x1 (interp_floor pure_bond_value redemption_price steps i)) cv
  let x3 := if call_price ≤ s then min x2 (max redemption_price cv) else x2
  if s ≤ put_price then max x3 put_price else x3

/-- Backward induction driver shared by both engines: `run_layers steps f term p df k`
is the value vector after `k` iterations of the loop
`for i in range(steps - 1, -1, -1)` (zz.py lines 38 and 117), i.e. the fully
adjusted vector of step `i = steps - k`; iteration `k+1` first applies the
expectation step to the step-`(steps-k)` vector and then the per-node clause
pass `f (steps - (k+1))` of step `steps - (k+1)`. -/
def run_layers (steps : ℕ) (f : ℕ → ℕ → α → α) (term : List α) (p df : α) : ℕ → List α
  | 0 => term
  | k + 1 => overlay_vec (f (steps - (k + 1))) 0 (expect_step p df (run_layers steps f term p df k))

/-- Value vectors of `calculate_cb_value`: `cb_layers ... k` is the adjusted
vector of step `steps - k`. -/
def cb_layers (S0 K pure_bond_value call_price put_price redemption_price u d p df : α)
    (steps : ℕ) : ℕ → List α :=
  run_layers steps
    (cb_node S0 K pure_bond_value call_price put_price redemption_price u d steps)
    (terminal_values S0 K u d redemption_price steps) p df

/-- Value vectors of `calculate_cb_with_reset`. -/
def cbr_layers (S0 K pure_bond_value call_price put_price redemption_price
    reset_threshold_pct p_reset net_asset_val u d p df : α) (steps : ℕ) : ℕ → List α :=
  run_layers steps
    (cbr_node S0 K pure_bond_value call_price put_price redemption_price
      reset_threshold_pct p_reset net_asset_val u d steps)
    (terminal_values S0 K u d redemption_price steps) p df

/-- Core of `calculate_cb_value` once the lattice scalars `u, d, p, df` are
known: run the full backward induction and return `values[0]`
(zz.py line 65). -/
def cb_value_core (S0 K pure_bond_value call_price put_price redemption_price u d p df : α)
    (steps : ℕ) : α :=
  (cb_layers S0 K pure_bond_value call_price put_price redemption_price u d p df steps steps).getD 0 0

/-- Core of `calculate_cb_with_reset` once the lattice scalars are known
(zz.py line 156). -/
def cb_reset_core (S0 K pure_bond_value call_price put_price redemption_price
    reset_threshold_pct p_reset net_asset_val u d p df : α) (steps : ℕ) : α :=
  (cbr_layers S0 K pure_bond_value call_price put_price redemption_price
    reset_threshold_pct p_reset net_asset_val u d p df steps steps).getD 0 0

/-- Joint bond-floor-and-conversion rule of the reset engine, exactly as
the single source line `values[j] = max(values[j], current_bond_floor, conv_val)`
(zz.py line 145) applies it. -/
def floor_conv_rule (K pure_bond_value redemption_price : α) (steps i : ℕ) (s x : α) : α :=
  max (max x (interp_floor pure_bond_value redemption_price steps i)) (conv_value K s)

/-- Forced-call cap rule (zz.py lines 149-150): a called node is capped at
`max(redemption_price, conversion_value)`. -/
def call_rule (K call_price redemption_price s x : α) : α :=
  if call_price ≤ s then min x (max redemption_price (conv_value K s)) else x

/-- Put-protection rule (zz.py lines 153-154): a node at or below the put
price is floored at the put price. -/
def put_rule (put_price s x : α) : α :=
  if s ≤ put_price then max x put_price else x

/-- Modelled from the words of claim C1 (not from the source), for
comparison with `reset_adjust`: the reset blend with the markup factor at
its claimed default of 1.0 and with the blend applied unconditionally at
every node at or below the trigger. -/
def reset_adjust_as_claimed (K reset_threshold_pct p_reset net_asset_val s x : α) : α :=
  if s ≤ K * reset_threshold_pct then
    let k_new := max (s * (102 / 100)) net_asset_val
    let v_after_reset := 100 / k_new * s
    (1 - p_reset) * x + p_reset * v_after_reset
  else x

/-- Per-node clause pass of the reset engine with the reset sub-step
replaced by the one claim C1 describes. -/
def cbr_node_as_claimed (S0 K pure_bond_value call_price put_price redemption_price
    reset_threshold_pct p_reset net_asset_val u d : α) (steps i j : ℕ) (x : α) : α :=
  let s := st_price S0 u d i j
  let cv := conv_value K s
  let x1 := reset_adjust_as_claimed K reset_threshold_pct p_reset net_asset_val s x
  let x2 := max (max x1 (interp_floor pure_bond_value redemption_price steps i)) cv
  let x3 := if call_price ≤ s then min x2 (max redemption_price cv) else x2
  if s ≤ put_price then max x3 put_price else x3

/-- The reset engine as claim C1 describes it. -/
def cb_reset_core_as_claimed (S0 K pure_bond_value call_price put_price redemption_price
    reset_threshold_pct p_reset net_asset_val u d p df : α) (steps : ℕ) : α :=
  (run_layers steps
    (cbr_node_as_claimed S0 K pure_bond_value call_price put_price redemption_price
      reset_threshold_pct p_reset net_asset_val u d steps)
    (terminal_values S0 K u d redemption_price steps) p df steps).getD 0 0

end EngineCore

/-- Up factor of the lattice: `u = exp(sigma * sqrt(dt))`
(zz.py lines 22 and 103). -/
noncomputable def lattice_u (sigma dt : ℝ) : ℝ := Real.exp (sigma * Real.sqrt dt)

/-- Full `calculate_cb_value` (zz.py lines 4-65): computes
`dt = T/steps`, `u = exp(sigma*sqrt(dt))`, `d = 1/u`,
`p = (exp(r*dt) - d)/(u - d)`, `df = exp(-r*dt)` and runs the backward
induction core.  No input validation of any kind is performed by the
source; the function is total. -/
noncomputable def calculate_cb_value (S0 K r sigma T : ℝ) (steps : ℕ)
    (pure_bond_value call_price put_price redemption_price : ℝ) : ℝ :=
  let dt := T / (steps : ℝ)
  let u := lattice_u sigma dt
  let d := 1 / u
  let p := (Real.exp (r * dt) - d) / (u - d)
  let df := Real.exp (-(r * dt))
  cb_value_core S0 K pure_bond_value call_price put_price redemption_price u d p df steps

/-- Full `calculate_cb_with_reset` (zz.py lines 86-156), with the reset
parameters `reset_threshold_pct`, `p_reset`, `net_asset_val`.  As in the
source, no input validation of any kind is performed. -/
noncomputable def calculate_cb_with_reset (S0 K r sigma T : ℝ) (steps : ℕ)
    (pure_bond_value call_price put_price redemption_price
      reset_threshold_pct p_reset net_asset_val : ℝ) : ℝ :=
  let dt := T / (steps : ℝ)
  let u := lattice_u sigma dt
  let d := 1 / u
  let p := (Real.exp (r * dt) - d) / (u - d)
  let df := Real.exp (-(r * dt))
  cb_reset_core S0 K pure_bond_value call_price put_price redemption_price
    reset_threshold_pct p_reset net_asset_val u d p df steps

section EngineLemmas

variable {α : Type} [LinearOrderedField α]

/-- Reading a vector past its end yields the default. -/
theorem getD_of_length_le {l : List α} {n : ℕ} (h : l.length ≤ n) (d : α) :
    l.getD n d = d := by
  simp [List.getD_eq_getElem?_getD, List.getElem?_eq_none h]

/-- The expectation step shortens the vector by one, as the numpy slices
`values[1:]` and `values[:-1]` do. -/
theorem expect_step_length (p df : α) :
    ∀ v : List α, (expect_step p df v).length = v.length - 1 := by
  intro v
  induction v with
  | nil => simp [expect_step]
  | cons x t ih =>
    cases t with
    | nil => simp [expect_step]
    | cons y r => simp [expect_step] at ih ⊢; omega

/-- Entry `j` of the expectation step is `(p * v[j+1] + (1-p) * v[j]) * df`. -/
theorem expect_step_getD (p df : α) :
    ∀ (v : List α) (j : ℕ), j + 1 < v.length →
      (expect_step p df v).getD j 0 = (p * v.getD (j + 1) 0 + (1 - p) * v.getD j 0) * df := by
  intro v
  induction v with
  | nil => intro j h; simp at h
  | cons x t ih =>
    cases t with
    | nil => intro j h; simp at h
    | cons y r =>
      intro j h
      cases j with
      | zero => simp [expect_step]
      | succ n =>
        simp only [expect_step, List.getD_cons_succ]
        exact ih n (by simpa using h)

/-- The clause loop does not change the vector length. -/
theorem overlay_vec_length (f : ℕ → α → α) :
    ∀ (m : ℕ) (v : List α), (overlay_vec f m v).length = v.length := by
  intro m v
  induction v generalizing m with
  | nil => simp [overlay_vec]
  | cons x t ih => simp [overlay_vec, ih]

/-- Entry `n` of the clause loop started at index `m` is `f (m+n)` applied
to entry `n` of the input. -/
theorem overlay_vec_getD (f : ℕ → α → α) :
    ∀ (v : List α) (m n : ℕ), n < v.length →
      (overlay_vec f m v).getD n 0 = f (m + n) (v.getD n 0) := by
  intro v
  induction v with
  | nil => intro m n h; simp at h
  | cons x t ih =>
    intro m n h
    cases n with
    | zero => simp [overlay_vec]
    | succ k =>
      simp only [overlay_vec, List.getD_cons_succ]
      rw [ih (m + 1) k (by simpa using h)]
      ring_nf

/-- Length of the step-`(steps-k)` vector: `k` backward-induction iterations
shrink the terminal vector by `k` entries. -/
theorem run_layers_length (steps : ℕ) (f : ℕ → ℕ → α → α) (term : List α) (p df : α) :
    ∀ k : ℕ, (run_layers steps f term p df k).length = term.length - k := by
  intro k
  induction k with
  | zero => simp [run_layers]
  | succ n ih =>
    simp only [run_layers]
    rw [overlay_vec_length, expect_step_length, ih]
    omega

/-- Characterisation of one backward-induction iteration: when the terminal
vector has `steps + 1` entries, entry `j` of the step-`(steps-(k+1))` vector
is the per-node clause pass applied to the discounted expectation of entries
`j` and `j+1` of the fully adjusted previous vector. -/
theorem run_layers_succ_getD (steps : ℕ) (f : ℕ → ℕ → α → α) (term : List α) (p df : α)
    (hterm : term.length = steps + 1) (k j : ℕ) (hk : k < steps) (hj : j ≤ steps - (k + 1)) :
    (run_layers steps f term p df (k + 1)).getD j 0 =
      f (steps - (k + 1)) j
        ((p * (run_layers steps f term p df k).getD (j + 1) 0 +
          (1 - p) * (run_layers steps f term p df k).getD j 0) * df) := by
  have hlen : (run_layers steps f term p df k).length = steps + 1 - k := by
    rw [run_layers_length, hterm]
  have hexp : (expect_step p df (run_layers steps f term p df k)).length = steps - k := by
    rw [expect_step_length, hlen]; omega
  have hj' : j < (expect_step p df (run_layers steps f term p df k)).length := by
    rw [hexp]; omega
  simp only [run_layers]
  rw [overlay_vec_getD _ _ 0 j hj', Nat.zero_add,
    expect_step_getD _ _ _ j (by rw [hlen]; omega)]

/-- The clause pass of `calculate_cb_value` never drops a node below its
conversion value: rule B is a max, and the call cap of rule C caps at
`max(redemption, conversion)`, itself at least the conversion value. -/
theorem conv_le_cb_node (S0 K pure_bond_value call_price put_price redemption_price u d : α)
    (steps i j : ℕ) (x : α) :
    conv_value K (st_price S0 u d i j) ≤
      cb_node S0 K pure_bond_value call_price put_price redemption_price u d steps i j x := by
  simp only [cb_node]
  split_ifs <;> simp [le_min_iff, le_max_iff]

/-- The clause pass of `calculate_cb_value` respects the ramp bond floor
provided that floor does not exceed the redemption price (otherwise the call
cap of rule C can cut below it). -/
theorem floor_le_cb_node (S0 K pure_bond_value call_price put_price redemption_price u d : α)
    (steps i j : ℕ) (x : α)
    (hfr : ramp_floor pure_bond_value steps i ≤ redemption_price) :
    ramp_floor pure_bond_value steps i ≤
      cb_node S0 K pure_bond_value call_price put_price redemption_price u d steps i j x := by
  simp only [cb_node]
  split_ifs <;> simp [le_min_iff, le_max_iff, hfr]

/-- Rule D of `calculate_cb_value` is evaluated last, so any node whose
stock price is at or below the put price ends at or above the put price. -/
theorem put_le_cb_node (S0 K pure_bond_value call_price put_price redemption_price u d : α)
    (steps i j : ℕ) (x : α) (h : st_price S0 u d i j ≤ put_price) :
    put_price ≤
      cb_node S0 K pure_bond_value call_price put_price redemption_price u d steps i j x := by
  simp only [cb_node]
  rw [if_pos h]
  exact le_max_right _ _

/-- Rule C of `calculate_cb_value` caps any called node at
`max(redemption, conversion)`; rule D cannot undo the cap because the put
trigger lies strictly below the call trigger. -/
theorem cb_node_le_call_cap (S0 K pure_bond_value call_price put_price redemption_price u d : α)
    (steps i j : ℕ) (x : α) (hc : call_price ≤ st_price S0 u d i j)
    (hpc : put_price < call_price) :
    cb_node S0 K pure_bond_value call_price put_price redemption_price u d steps i j x ≤
      max redemption_price (conv_value K (st_price S0 u d i j)) := by
  have hnp : ¬ st_price S0 u d i j ≤ put_price := not_le.mpr (lt_of_lt_of_le hpc hc)
  simp only [cb_node]
  rw [if_neg hnp, if_pos hc]
  exact min_le_right _ _

/-- The clause pass of `calculate_cb_with_reset` never drops a node below
its conversion value. -/
theorem conv_le_cbr_node (S0 K pure_bond_value call_price put_price redemption_price
    reset_threshold_pct p_reset net_asset_val u d : α) (steps i j : ℕ) (x : α) :
    conv_value K (st_price S0 u d i j) ≤
      cbr_node S0 K pure_bond_value call_price put_price redemption_price
        reset_threshold_pct p_reset net_asset_val u d steps i j x := by
  simp only [cbr_node]
  split_ifs <;> simp [le_min_iff, le_max_iff]

/-- The clause pass of `calculate_cb_with_reset` respects the interpolated
bond floor provided that floor does not exceed the redemption price. -/
theorem floor_le_cbr_node (S0 K pure_bond_value call_price put_price redemption_price
    reset_threshold_pct p_reset net_asset_val u d : α) (steps i j : ℕ) (x : α)
    (hfr : interp_floor pure_bond_value redemption_price steps i ≤ redemption_price) :
    interp_floor pure_bond_value redemption_price steps i ≤
      cbr_node S0 K pure_bond_value call_price put_price redemption_price
        reset_threshold_pct p_reset net_asset_val u d steps i j x := by
  simp only [cbr_node]
  split_ifs <;> simp [le_min_iff, le_max_iff, hfr]

/-- Rule E of `calculate_cb_with_reset` is evaluated last: a node at or
below the put price ends at or above the put price. -/
theorem put_le_cbr_node (S0 K pure_bond_value call_price put_price redemption_price
    reset_threshold_pct p_reset net_asset_val u d : α) (steps i j : ℕ) (x : α)
    (h : st_price S0 u d i j ≤ put_price) :
    put_price ≤
      cbr_node S0 K pure_bond_value call_price put_price redemption_price
        reset_threshold_pct p_reset net_asset_val u d steps i j x := by
  simp only [cbr_node]
  rw [if_pos h]
  exact le_max_right _ _

/-- Rule D of `calculate_cb_with_reset` caps any called node at
`max(redemption, conversion)`. -/
theorem cbr_node_le_call_cap (S0 K pure_bond_value call_price put_price redemption_price
    reset_threshold_pct p_reset net_asset_val u d : α) (steps i j : ℕ) (x : α)
    (hc : call_price ≤ st_price S0 u d i j) (hpc : put_price < call_price) :
    cbr_node S0 K pure_bond_value call_price put_price redemption_price
        reset_threshold_pct p_reset net_asset_val u d steps i j x ≤
      max redemption_price (conv_value K (st_price S0 u d i j)) := by
  have hnp : ¬ st_price S0 u d i j ≤ put_price := not_le.mpr (lt_of_lt_of_le hpc hc)
  simp only [cbr_node]
  rw [if_neg hnp, if_pos hc]
  exact min_le_right _ _

/-- The reset blend is only applied when the post-reset value strictly
exceeds the current value, so with a non-negative reset probability it can
only raise the node value. -/
theorem le_reset_adjust (K reset_threshold_pct p_reset net_asset_val s x : α)
    (hpr : 0 ≤ p_reset) :
    x ≤ reset_adjust K reset_threshold_pct p_reset net_asset_val s x := by
  simp only [reset_adjust]
  split_ifs with h1 h2
  · have h3 := mul_nonneg hpr (sub_nonneg.mpr h2.le)
    nlinarith [h3]
  · exact le_refl x
  · exact le_refl x

/-- Joint monotonicity of the reset blend in the incoming value and the
reset probability (on `[0,1]`). -/
theorem reset_adjust_le_reset_adjust (K reset_threshold_pct net_asset_val s : α)
    {p1 p2 x1 x2 : α} (hx : x1 ≤ x2) (h1 : 0 ≤ p1) (h12 : p1 ≤ p2) (h2 : p2 ≤ 1) :
    reset_adjust K reset_threshold_pct p1 net_asset_val s x1 ≤
      reset_adjust K reset_threshold_pct p2 net_asset_val s x2 := by
  by_cases ht : s ≤ K * reset_threshold_pct
  · simp only [reset_adjust, if_pos ht]
    by_cases hb1 : x1 < 100 / max (s * (102 / 100)) net_asset_val * s * (120 / 100)
    · rw [if_pos hb1]
      by_cases hb2 : x2 < 100 / max (s * (102 / 100)) net_asset_val * s * (120 / 100)
      · rw [if_pos hb2]
        have ha : (0:α) ≤ 1 - p1 := by linarith
        have hb : (0:α) ≤ p2 - p1 := by linarith
        nlinarith [mul_nonneg ha (sub_nonneg.mpr hx), mul_nonneg hb (sub_nonneg.mpr hb2.le)]
      · rw [if_neg hb2]
        have ha : (0:α) ≤ 1 - p1 := by linarith
        have hv2 := not_lt.mp hb2
        nlinarith [mul_nonneg ha (sub_nonneg.mpr hb1.le)]
    · rw [if_neg hb1]
      by_cases hb2 : x2 < 100 / max (s * (102 / 100)) net_asset_val * s * (120 / 100)
      · rw [if_pos hb2]
        have hv1 := not_lt.mp hb1
        linarith
      · rw [if_neg hb2]; exact hx
  · simp only [reset_adjust, if_neg ht]; exact hx

/-- Joint monotonicity of the full clause pass of `calculate_cb_with_reset`
in the incoming node value and the reset probability. -/
theorem cbr_node_le_cbr_node (S0 K pure_bond_value call_price put_price redemption_price
    reset_threshold_pct net_asset_val u d : α) (steps i j : ℕ) {p1 p2 x1 x2 : α}
    (hx : x1 ≤ x2) (h1 : 0 ≤ p1) (h12 : p1 ≤ p2) (h2 : p2 ≤ 1) :
    cbr_node S0 K pure_bond_value call_price put_price redemption_price
        reset_threshold_pct p1 net_asset_val u d steps i j x1 ≤
      cbr_node S0 K pure_bond_value call_price put_price redemption_price
        reset_threshold_pct p2 net_asset_val u d steps i j x2 := by
  have hr := reset_adjust_le_reset_adjust K reset_threshold_pct net_asset_val
    (st_price S0 u d i j) hx h1 h12 h2
  simp only [cbr_node]
  split_ifs <;>
    first
      | exact max_le_max (min_le_min (max_le_max (max_le_max hr le_rfl) le_rfl) le_rfl) le_rfl
      | exact min_le_min (max_le_max (max_le_max hr le_rfl) le_rfl) le_rfl
      | exact max_le_max (max_le_max (max_le_max hr le_rfl) le_rfl) le_rfl
      | exact max_le_max (max_le_max hr le_rfl) le_rfl

/-- Pointwise monotonicity of the expectation step, for a risk-neutral
probability in `[0,1]` and a non-negative discount factor. -/
theorem expect_step_getD_le (p df : α) (hp0 : 0 ≤ p) (hp1 : p ≤ 1) (hdf : 0 ≤ df)
    {v1 v2 : List α} (hlen : v1.length = v2.length)
    (hv : ∀ j, v1.getD j 0 ≤ v2.getD j 0) (j : ℕ) :
    (expect_step p df v1).getD j 0 ≤ (expect_step p df v2).getD j 0 := by
  by_cases h : j + 1 < v1.length
  · rw [expect_step_getD p df v1 j h, expect_step_getD p df v2 j (hlen ▸ h)]
    have ha : p * v1.getD (j + 1) 0 ≤ p * v2.getD (j + 1) 0 :=
      mul_le_mul_of_nonneg_left (hv _) hp0
    have hb : (1 - p) * v1.getD j 0 ≤ (1 - p) * v2.getD j 0 :=
      mul_le_mul_of_nonneg_left (hv _) (by linarith)
    exact mul_le_mul_of_nonneg_right (add_le_add ha hb) hdf
  · have e1 : (expect_step p df v1).getD j 0 = 0 :=
      getD_of_length_le (by rw [expect_step_length]; omega) 0
    have e2 : (expect_step p df v2).getD j 0 = 0 :=
      getD_of_length_le (by rw [expect_step_length]; omega) 0
    rw [e1, e2]

/-- Pointwise monotonicity of the clause loop under a pair of pointwise
comparable per-node transformations. -/
theorem overlay_vec_getD_le (f1 f2 : ℕ → α → α)
    (hf : ∀ m x1 x2, x1 ≤ x2 → f1 m x1 ≤ f2 m x2)
    {v1 v2 : List α} (hlen : v1.length = v2.length)
    (hv : ∀ j, v1.getD j 0 ≤ v2.getD j 0) (m j : ℕ) :
    (overlay_vec f1 m v1).getD j 0 ≤ (overlay_vec f2 m v2).getD j 0 := by
  by_cases h : j < v1.length
  · rw [overlay_vec_getD f1 v1 m j h, overlay_vec_getD f2 v2 m j (hlen ▸ h)]
    exact hf _ _ _ (hv j)
  · have e1 : (overlay_vec f1 m v1).getD j 0 = 0 :=
      getD_of_length_le (by rw [overlay_vec_length]; omega) 0
    have e2 : (overlay_vec f2 m v2).getD j 0 = 0 :=
      getD_of_length_le (by rw [overlay_vec_length]; omega) 0
    rw [e1, e2]

/-- Pointwise monotonicity of the whole backward induction under a pair of
pointwise comparable per-node clause passes. -/
theorem run_layers_getD_le (steps : ℕ) (f1 f2 : ℕ → ℕ → α → α) (term : List α) (p df : α)
    (hf : ∀ i j x1 x2, x1 ≤ x2 → f1 i j x1 ≤ f2 i j x2)
    (hp0 : 0 ≤ p) (hp1 : p ≤ 1) (hdf : 0 ≤ df) :
    ∀ k j : ℕ,
      (run_layers steps f1 term p df k).getD j 0 ≤ (run_layers steps f2 term p df k).getD j 0 := by
  intro k
  induction k with
  | zero => intro j; simp [run_layers]
  | succ n ih =>
    intro j
    simp only [run_layers]
    have hlen : (run_layers steps f1 term p df n).length =
        (run_layers steps f2 term p df n).length := by
      rw [run_layers_length, run_layers_length]
    exact overlay_vec_getD_le (f1 (steps - (n + 1))) (f2 (steps - (n + 1)))
      (fun m => hf (steps - (n + 1)) m)
      (by rw [expect_step_length, expect_step_length, hlen])
      (expect_step_getD_le p df hp0 hp1 hdf hlen ih) 0 j

/-- Bound for the ramp floor: below `pure_bond_value`, hence below the
redemption price, whenever `0 ≤ pure_bond_value ≤ redemption_price`. -/
theorem ramp_floor_le (pure_bond_value redemption_price : α) (steps i : ℕ)
    (h0 : 0 ≤ pure_bond_value) (h1 : pure_bond_value ≤ redemption_price)
    (hi : i ≤ steps) (hs : 0 < steps) :
    ramp_floor pure_bond_value steps i ≤ redemption_price := by
  have hsa : (0:α) < (steps : α) := by exact_mod_cast hs
  have hia : (i : α) ≤ (steps : α) := by exact_mod_cast hi
  have key : pure_bond_value / (steps : α) * (i : α) ≤
      pure_bond_value / (steps : α) * (steps : α) :=
    mul_le_mul_of_nonneg_left hia (div_nonneg h0 hsa.le)
  have hcancel : pure_bond_value / (steps : α) * (steps : α) = pure_bond_value :=
    div_mul_cancel₀ pure_bond_value hsa.ne'
  calc ramp_floor pure_bond_value steps i
      ≤ pure_bond_value / (steps : α) * (steps : α) := key
    _ = pure_bond_value := hcancel
    _ ≤ redemption_price := h1

/-- Bound for the interpolated floor: a convex combination of
`pure_bond_value` and `redemption_price`, hence below the latter whenever
`pure_bond_value ≤ redemption_price`. -/
theorem interp_floor_le (pure_bond_value redemption_price : α) (steps i : ℕ)
    (h1 : pure_bond_value ≤ redemption_price) (hi : i ≤ steps) (hs : 0 < steps) :
    interp_floor pure_bond_value redemption_price steps i ≤ redemption_price := by
  have hsa : (0:α) < (steps : α) := by exact_mod_cast hs
  have hia : (i : α) ≤ (steps : α) := by exact_mod_cast hi
  have hq0 : (0:α) ≤ (i : α) / (steps : α) :=
    div_nonneg (by exact_mod_cast Nat.zero_le i) hsa.le
  have hq1 : (i : α) / (steps : α) ≤ 1 := (div_le_one hsa).mpr hia
  have hd : (0:α) ≤ redemption_price - pure_bond_value := by linarith
  simp only [interp_floor]
  nlinarith [mul_nonneg hd hq0]

/-- The terminal vector has `steps + 1` entries. -/
theorem terminal_values_length (S0 K u d redemption_price : α) (steps : ℕ) :
    (terminal_values S0 K u d redemption_price steps).length = steps + 1 := by
  simp [terminal_values]

/-- Entry `j` of the terminal vector. -/
theorem terminal_values_getD (S0 K u d redemption_price : α) (steps j : ℕ) (hj : j ≤ steps) :
    (terminal_values S0 K u d redemption_price steps).getD j 0 =
      max (conv_value K (st_price S0 u d steps j)) redemption_price := by
  have hjl : j < (terminal_values S0 K u d redemption_price steps).length := by
    rw [terminal_values_length]; omega
  rw [List.getD_eq_getElem _ _ hjl]
  simp [terminal_values]

/-- Characterisation of one backward-induction iteration of
`calculate_cb_value`. -/
theorem cb_layers_succ_getD (S0 K pure_bond_value call_price put_price redemption_price
    u d p df : α) (steps k j : ℕ) (hk : k < steps) (hj : j ≤ steps - (k + 1)) :
    (cb_layers S0 K pure_bond_value call_price put_price redemption_price u d p df steps
        (k + 1)).getD j 0 =
      cb_node S0 K pure_bond_value call_price put_price redemption_price u d steps
        (steps - (k + 1)) j
        ((p * (cb_layers S0 K pure_bond_value call_price put_price redemption_price u d p df
            steps k).getD (j + 1) 0 +
          (1 - p) * (cb_layers S0 K pure_bond_value call_price put_price redemption_price u d p df
            steps k).getD j 0) * df) := by
  simp only [cb_layers]
  exact run_layers_succ_getD steps _ _ p df (terminal_values_length _ _ _ _ _ _) k j hk hj

/-- Characterisation of one backward-induction iteration of
`calculate_cb_with_reset`. -/
theorem cbr_layers_succ_getD (S0 K pure_bond_value call_price put_price redemption_price
    reset_threshold_pct p_reset net_asset_val u d p df : α) (steps k j : ℕ)
    (hk : k < steps) (hj : j ≤ steps - (k + 1)) :
    (cbr_layers S0 K pure_bond_value call_price put_price redemption_price
        reset_threshold_pct p_reset net_asset_val u d p df steps (k + 1)).getD j 0 =
      cbr_node S0 K pure_bond_value call_price put_price redemption_price
        reset_threshold_pct p_reset net_asset_val u d steps (steps - (k + 1)) j
        ((p * (cbr_layers S0 K pure_bond_value call_price put_price redemption_price
            reset_threshold_pct p_reset net_asset_val u d p df steps k).getD (j + 1) 0 +
          (1 - p) * (cbr_layers S0 K pure_bond_value call_price put_price redemption_price
            reset_threshold_pct p_reset net_asset_val u d p df steps k).getD j 0) * df) := by
  simp only [cbr_layers]
  exact run_layers_succ_getD steps _ _ p df (terminal_values_length _ _ _ _ _ _) k j hk hj

/-- Every post-pass node value of `calculate_cb_value` at a step `i < steps`
is the per-node clause pass applied to some incoming value. -/
theorem cb_layers_node_form (S0 K pure_bond_value call_price put_price redemption_price
    u d p df : α) (steps i j : ℕ) (hi : i < steps) (hj : j ≤ i) :
    ∃ x, (cb_layers S0 K pure_bond_value call_price put_price redemption_price u d p df steps
        (steps - i)).getD j 0 =
      cb_node S0 K pure_bond_value call_price put_price redemption_price u d steps i j x := by
  have hk : steps - i = (steps - i - 1) + 1 := by omega
  rw [hk, cb_layers_succ_getD S0 K pure_bond_value call_price put_price redemption_price
    u d p df steps (steps - i - 1) j (by omega) (by omega),
    show steps - (steps - i - 1 + 1) = i from by omega]
  exact ⟨_, rfl⟩

/-- Every post-pass node value of `calculate_cb_with_reset` at a step
`i < steps` is the per-node clause pass applied to some incoming value. -/
theorem cbr_layers_node_form (S0 K pure_bond_value call_price put_price redemption_price
    reset_threshold_pct p_reset net_asset_val u d p df : α) (steps i j : ℕ)
    (hi : i < steps) (hj : j ≤ i) :
    ∃ x, (cbr_layers S0 K pure_bond_value call_price put_price redemption_price
        reset_threshold_pct p_reset net_asset_val u d p df steps (steps - i)).getD j 0 =
      cbr_node S0 K pure_bond_value call_price put_price redemption_price
        reset_threshold_pct p_reset net_asset_val u d steps i j x := by
  have hk : steps - i = (steps - i - 1) + 1 := by omega
  rw [hk, cbr_layers_succ_getD S0 K pure_bond_value call_price put_price redemption_price
    reset_threshold_pct p_reset net_asset_val u d p df steps (steps - i - 1) j
    (by omega) (by omega),
    show steps - (steps - i - 1 + 1) = i from by omega]
  exact ⟨_, rfl⟩

end EngineLemmas

/-- C1 fails as stated: the source computes
`v_after_reset = (100 / k_new * st[j]) * 1.20` with a hard-coded `1.20`
markup (not the claimed default of `1.0`) and performs the blend only when
`v_after_reset > values[j]` (not unconditionally).  On the concrete
one-step input below (root stock price `5` under the trigger `85`), the
engine returns `1790/17` whereas the computation described by the claim
returns `100`. -/
theorem c1_counterexample :
    cb_reset_core (5:ℚ) 100 90 130 70 100 (85/100) (3/10) 5 2 (1/2) (1/3) 1 1 ≠
      cb_reset_core_as_claimed (5:ℚ) 100 90 130 70 100 (85/100) (3/10) 5 2 (1/2) (1/3) 1 1 := by
  norm_num [cb_reset_core, cb_reset_core_as_claimed, cbr_layers, run_layers,
    terminal_values, List.range_succ, expect_step, overlay_vec, cbr_node,
    cbr_node_as_claimed, reset_adjust, reset_adjust_as_claimed, interp_floor,
    st_price, conv_value, max_def, min_def]

/-- C1 (amended): at every node whose stock price is at or below
`K * reset_threshold_pct`, `calculate_cb_with_reset` computes
`k_new = max(stock_price * 1.02, net_asset_val)` and
`v_after_reset = (100 / k_new * stock_price) * 1.20` — the markup factor is
the hard-coded `1.20`, not a configurable default of `1.0` — and, only when
`v_after_reset` exceeds the raw post-expectation value, sets
`value = (1 - p_reset) * value + p_reset * v_after_reset`; this blend is
applied before the bond-floor, conversion, call-cap and put-floor rules of
that node, which clamp the blended result. -/
theorem c1_reset_markup_and_order {α : Type} [LinearOrderedField α]
    (S0 K pure_bond_value call_price put_price redemption_price
      reset_threshold_pct p_reset net_asset_val u d : α) (steps i j : ℕ) (x : α)
    (hs : st_price S0 u d i j ≤ K * reset_threshold_pct) :
    cbr_node S0 K pure_bond_value call_price put_price redemption_price
        reset_threshold_pct p_reset net_asset_val u d steps i j x =
      put_rule put_price (st_price S0 u d i j)
        (call_rule K call_price redemption_price (st_price S0 u d i j)
          (floor_conv_rule K pure_bond_value redemption_price steps i (st_price S0 u d i j)
            (reset_adjust K reset_threshold_pct p_reset net_asset_val
              (st_price S0 u d i j) x))) ∧
    (x < 100 / max (st_price S0 u d i j * (102 / 100)) net_asset_val *
        st_price S0 u d i j * (120 / 100) →
      reset_adjust K reset_threshold_pct p_reset net_asset_val (st_price S0 u d i j) x =
        (1 - p_reset) * x +
          p_reset * (100 / max (st_price S0 u d i j * (102 / 100)) net_asset_val *
            st_price S0 u d i j * (120 / 100))) ∧
    (100 / max (st_price S0 u d i j * (102 / 100)) net_asset_val *
        st_price S0 u d i j * (120 / 100) ≤ x →
      reset_adjust K reset_threshold_pct p_reset net_asset_val (st_price S0 u d i j) x = x) := by
  refine ⟨?_, ?_, ?_⟩
  · simp only [cbr_node, put_rule, call_rule, floor_conv_rule]
  · intro hlt
    simp only [reset_adjust, if_pos hs]
    rw [if_pos hlt]
  · intro hge
    simp only [reset_adjust, if_pos hs]
    rw [if_neg (not_lt.mpr hge)]

/-- C1 (amended), witnessed at a concrete input: root node of a one-step
lattice with stock price `5` under the trigger `85`, incoming value `100`
below the post-reset value `2000/17`, so the conditional blend fires with
the `1.20` markup. -/
theorem c1_reset_markup_and_order_witness :
    (st_price (5:ℚ) 2 (1/2) 0 0 ≤ 100 * (85/100) ∧
      (100:ℚ) < 100 / max (st_price (5:ℚ) 2 (1/2) 0 0 * (102 / 100)) 5 *
        st_price (5:ℚ) 2 (1/2) 0 0 * (120 / 100)) ∧
    (cbr_node (5:ℚ) 100 90 130 70 100 (85/100) (3/10) 5 2 (1/2) 1 0 0 100 =
      put_rule 70 (st_price (5:ℚ) 2 (1/2) 0 0)
        (call_rule 100 130 100 (st_price (5:ℚ) 2 (1/2) 0 0)
          (floor_conv_rule 100 90 100 1 0 (st_price (5:ℚ) 2 (1/2) 0 0)
            (reset_adjust 100 (85/100) (3/10) 5 (st_price (5:ℚ) 2 (1/2) 0 0) 100))) ∧
    reset_adjust (100:ℚ) (85/100) (3/10) 5 (st_price (5:ℚ) 2 (1/2) 0 0) 100 =
      (1 - 3/10) * 100 +
        (3/10) * (100 / max (st_price (5:ℚ) 2 (1/2) 0 0 * (102 / 100)) 5 *
          st_price (5:ℚ) 2 (1/2) 0 0 * (120 / 100))) :=
  ⟨⟨by norm_num [st_price], by norm_num [st_price, max_def]⟩,
    (c1_reset_markup_and_order 5 100 90 130 70 100 (85/100) (3/10) 5 2 (1/2) 1 0 0 100
      (by norm_num [st_price])).1,
    (c1_reset_markup_and_order 5 100 90 130 70 100 (85/100) (3/10) 5 2 (1/2) 1 0 0 100
      (by norm_num [st_price])).2.1 (by norm_num [st_price, max_def])⟩

/-- C2: the claim (spec scenario 4 and error-model section) says the
engines fail with `DegenerateLattice` when `sigma = 0`; the source performs
no validation at all.  At `sigma = 0` the lattice degenerates — `u = d = 1`,
so the divisor `u - d` of the risk-neutral probability is `0` — yet both
engines return a numeric value (here `100`, on the inputs of spec
scenario 4) instead of failing.  In this embedding division by zero is
total with `x / 0 = 0`; the float source likewise raises nothing and
propagates the ill-defined probability. -/
theorem c2_sigma_zero_returns_value :
    lattice_u 0 ((1:ℝ) / ((1:ℕ):ℝ)) - 1 / lattice_u 0 ((1:ℝ) / ((1:ℕ):ℝ)) = 0 ∧
    calculate_cb_value 100 100 0 0 1 1 90 150 70 100 = 100 ∧
    calculate_cb_with_reset 100 100 0 0 1 1 90 150 70 100 (85/100) (3/10) 5 = 100 := by
  refine ⟨?_, ?_, ?_⟩
  · simp [lattice_u]
  · norm_num [calculate_cb_value, lattice_u, Real.sqrt_one, Real.exp_zero,
      cb_value_core, cb_layers, run_layers, terminal_values, List.range_succ,
      expect_step, overlay_vec, cb_node, ramp_floor, st_price, conv_value,
      max_def, min_def]
  · norm_num [calculate_cb_with_reset, lattice_u, Real.sqrt_one, Real.exp_zero,
      cb_reset_core, cbr_layers, run_layers, terminal_values, List.range_succ,
      expect_step, overlay_vec, cbr_node, reset_adjust, interp_floor, st_price,
      conv_value, max_def, min_def]

/-- C3 fails as stated: with `pure_bond_value = 1000` above
`redemption_price = 100` (allowed by every data-model invariant of the
spec), the forced-call cap cuts node `j = 1` of step `i = 1` of a two-step
`calculate_cb_value` lattice down to `400`, strictly below the ramp bond
floor `1000/2 * 1 = 500`, so the post-pass value is not `≥` the
time-dependent bond floor at that node.  Input: `S0 = 2`, `K = 1`,
`call_price = 2`, `put_price = 1/2`, `u = 2`, `d = 1/2`, `p = 1/3`,
`df = 1` (realised by `r = 0`, `sigma = ln 2`, `T = 2`, `steps = 2`). -/
theorem c3_counterexample :
    (cb_layers (2:ℚ) 1 1000 2 (1/2) 100 2 (1/2) (1/3) 1 2 1).getD 1 0 <
      ramp_floor (1000:ℚ) 2 1 := by
  norm_num [cb_layers, run_layers, terminal_values, List.range_succ, expect_step,
    overlay_vec, cb_node, ramp_floor, st_price, conv_value, max_def, min_def]

/-- C3 (amended): provided additionally `0 ≤ pure_bond_value ≤
redemption_price` (so the time-dependent bond floor never exceeds the
redemption price), every node at every backward-induction step of both
engines ends the full per-step clause pass at or above the node's
conversion value and at or above the time-dependent bond floor used at
that step (`ramp_floor` for `calculate_cb_value`, `interp_floor` for
`calculate_cb_with_reset`).  Without that extra hypothesis the bond-floor
half fails, see the counterexample. -/
theorem c3_floor_dominance_amended {α : Type} [LinearOrderedField α]
    (S0 K pure_bond_value call_price put_price redemption_price
      reset_threshold_pct p_reset net_asset_val u d p df : α) (steps i j : ℕ)
    (h0 : 0 ≤ pure_bond_value) (h1 : pure_bond_value ≤ redemption_price)
    (hi : i < steps) (hj : j ≤ i) :
    (conv_value K (st_price S0 u d i j) ≤
        (cb_layers S0 K pure_bond_value call_price put_price redemption_price u d p df steps
          (steps - i)).getD j 0 ∧
      ramp_floor pure_bond_value steps i ≤
        (cb_layers S0 K pure_bond_value call_price put_price redemption_price u d p df steps
          (steps - i)).getD j 0) ∧
    (conv_value K (st_price S0 u d i j) ≤
        (cbr_layers S0 K pure_bond_value call_price put_price redemption_price
          reset_threshold_pct p_reset net_asset_val u d p df steps (steps - i)).getD j 0 ∧
      interp_floor pure_bond_value redemption_price steps i ≤
        (cbr_layers S0 K pure_bond_value call_price put_price redemption_price
          reset_threshold_pct p_reset net_asset_val u d p df steps (steps - i)).getD j 0) := by
  obtain ⟨x, hx⟩ := cb_layers_node_form S0 K pure_bond_value call_price put_price
    redemption_price u d p df steps i j hi hj
  obtain ⟨y, hy⟩ := cbr_layers_node_form S0 K pure_bond_value call_price put_price
    redemption_price reset_threshold_pct p_reset net_asset_val u d p df steps i j hi hj
  have hrf : ramp_floor pure_bond_value steps i ≤ redemption_price :=
    ramp_floor_le pure_bond_value redemption_price steps i h0 h1 (by omega) (by omega)
  have hif : interp_floor pure_bond_value redemption_price steps i ≤ redemption_price :=
    interp_floor_le pure_bond_value redemption_price steps i h1 (by omega) (by omega)
  refine ⟨⟨?_, ?_⟩, ?_, ?_⟩
  · rw [hx]; exact conv_le_cb_node _ _ _ _ _ _ _ _ _ _ _ _
  · rw [hx]; exact floor_le_cb_node _ _ _ _ _ _ _ _ _ _ _ _ hrf
  · rw [hy]; exact conv_le_cbr_node _ _ _ _ _ _ _ _ _ _ _ _ _ _ _
  · rw [hy]; exact floor_le_cbr_node _ _ _ _ _ _ _ _ _ _ _ _ _ _ _ hif

/-- C3 (amended), witnessed at a concrete input: the root of a one-step
lattice with `pure_bond_value = 90 ≤ redemption_price = 100`. -/
theorem c3_floor_dominance_amended_witness :
    ((0:ℚ) ≤ 90 ∧ (90:ℚ) ≤ 100 ∧ (0:ℕ) < 1 ∧ (0:ℕ) ≤ 0) ∧
    ((conv_value (100:ℚ) (st_price 100 2 (1/2) 0 0) ≤
        (cb_layers (100:ℚ) 100 90 150 70 100 2 (1/2) (1/3) 1 1 (1 - 0)).getD 0 0 ∧
      ramp_floor (90:ℚ) 1 0 ≤
        (cb_layers (100:ℚ) 100 90 150 70 100 2 (1/2) (1/3) 1 1 (1 - 0)).getD 0 0) ∧
    (conv_value (100:ℚ) (st_price 100 2 (1/2) 0 0) ≤
        (cbr_layers (100:ℚ) 100 90 150 70 100 (85/100) (3/10) 5 2 (1/2) (1/3) 1 1
          (1 - 0)).getD 0 0 ∧
      interp_floor (90:ℚ) 100 1 0 ≤
        (cbr_layers (100:ℚ) 100 90 150 70 100 (85/100) (3/10) 5 2 (1/2) (1/3) 1 1
          (1 - 0)).getD 0 0)) :=
  ⟨⟨by norm_num, by norm_num, by norm_num, by norm_num⟩,
    c3_floor_dominance_amended 100 100 90 150 70 100 (85/100) (3/10) 5 2 (1/2) (1/3) 1 1
      0 0 (by norm_num) (by norm_num) (by norm_num) (by norm_num)⟩

/-- C4: for every node at every backward-induction step whose stock price is
at or below `put_price`, in both `calculate_cb_value` and
`calculate_cb_with_reset`, the node value after the full per-step clause
pass is at least `put_price`; the put rule is evaluated last, so the call
cap cannot remove this floor. -/
theorem c4_put_floor {α : Type} [LinearOrderedField α]
    (S0 K pure_bond_value call_price put_price redemption_price
      reset_threshold_pct p_reset net_asset_val u d p df : α) (steps i j : ℕ)
    (hi : i < steps) (hj : j ≤ i) (hput : st_price S0 u d i j ≤ put_price) :
    put_price ≤
      (cb_layers S0 K pure_bond_value call_price put_price redemption_price u d p df steps
        (steps - i)).getD j 0 ∧
    put_price ≤
      (cbr_layers S0 K pure_bond_value call_price put_price redemption_price
        reset_threshold_pct p_reset net_asset_val u d p df steps (steps - i)).getD j 0 := by
  constructor
  · obtain ⟨x, hx⟩ := cb_layers_node_form S0 K pure_bond_value call_price put_price
      redemption_price u d p df steps i j hi hj
    rw [hx]
    exact put_le_cb_node _ _ _ _ _ _ _ _ _ _ _ _ hput
  · obtain ⟨x, hx⟩ := cbr_layers_node_form S0 K pure_bond_value call_price put_price
      redemption_price reset_threshold_pct p_reset net_asset_val u d p df steps i j hi hj
    rw [hx]
    exact put_le_cbr_node _ _ _ _ _ _ _ _ _ _ _ _ _ _ _ hput

/-- C4, witnessed at a concrete input: `S0 = 60 ≤ put_price = 70` at the
root of a one-step lattice. -/
theorem c4_put_floor_witness :
    ((0:ℕ) < 1 ∧ (0:ℕ) ≤ 0 ∧ st_price (60:ℚ) 2 (1/2) 0 0 ≤ 70) ∧
    ((70:ℚ) ≤
      (cb_layers (60:ℚ) 100 90 150 70 100 2 (1/2) (1/3) 1 1 (1 - 0)).getD 0 0 ∧
    (70:ℚ) ≤
      (cbr_layers (60:ℚ) 100 90 150 70 100 (85/100) (3/10) 5 2 (1/2) (1/3) 1 1
        (1 - 0)).getD 0 0) :=
  ⟨⟨by norm_num, by norm_num, by norm_num [st_price]⟩,
    c4_put_floor 60 100 90 150 70 100 (85/100) (3/10) 5 2 (1/2) (1/3) 1 1 0 0
      (by norm_num) (by norm_num) (by norm_num [st_price])⟩

/-- C5: under the parameter invariant `call_price > K > put_price`, every
node at every backward-induction step whose stock price is at or above
`call_price` ends the per-step clause pass at or below
`max(redemption_price, conversion_value)`, in both engines. -/
theorem c5_call_cap {α : Type} [LinearOrderedField α]
    (S0 K pure_bond_value call_price put_price redemption_price
      reset_threshold_pct p_reset net_asset_val u d p df : α) (steps i j : ℕ)
    (hKcp : K < call_price) (hpK : put_price < K)
    (hi : i < steps) (hj : j ≤ i) (hcall : call_price ≤ st_price S0 u d i j) :
    (cb_layers S0 K pure_bond_value call_price put_price redemption_price u d p df steps
        (steps - i)).getD j 0 ≤
      max redemption_price (conv_value K (st_price S0 u d i j)) ∧
    (cbr_layers S0 K pure_bond_value call_price put_price redemption_price
        reset_threshold_pct p_reset net_asset_val u d p df steps (steps - i)).getD j 0 ≤
      max redemption_price (conv_value K (st_price S0 u d i j)) := by
  have hpc : put_price < call_price := lt_trans hpK hKcp
  constructor
  · obtain ⟨x, hx⟩ := cb_layers_node_form S0 K pure_bond_value call_price put_price
      redemption_price u d p df steps i j hi hj
    rw [hx]
    exact cb_node_le_call_cap _ _ _ _ _ _ _ _ _ _ _ _ hcall hpc
  · obtain ⟨x, hx⟩ := cbr_layers_node_form S0 K pure_bond_value call_price put_price
      redemption_price reset_threshold_pct p_reset net_asset_val u d p df steps i j hi hj
    rw [hx]
    exact cbr_node_le_call_cap _ _ _ _ _ _ _ _ _ _ _ _ _ _ _ hcall hpc

/-- C5, witnessed at a concrete input: `S0 = 160 ≥ call_price = 150` at the
root of a one-step lattice, with `call_price = 150 > K = 100 > put_price = 70`. -/
theorem c5_call_cap_witness :
    ((100:ℚ) < 150 ∧ (70:ℚ) < 100 ∧ (0:ℕ) < 1 ∧ (0:ℕ) ≤ 0 ∧
      (150:ℚ) ≤ st_price (160:ℚ) 2 (1/2) 0 0) ∧
    ((cb_layers (160:ℚ) 100 90 150 70 100 2 (1/2) (1/3) 1 1 (1 - 0)).getD 0 0 ≤
      max (100:ℚ) (conv_value 100 (st_price (160:ℚ) 2 (1/2) 0 0)) ∧
    (cbr_layers (160:ℚ) 100 90 150 70 100 (85/100) (3/10) 5 2 (1/2) (1/3) 1 1
        (1 - 0)).getD 0 0 ≤
      max (100:ℚ) (conv_value 100 (st_price (160:ℚ) 2 (1/2) 0 0))) :=
  ⟨⟨by norm_num, by norm_num, by norm_num, by norm_num, by norm_num [st_price]⟩,
    c5_call_cap 160 100 90 150 70 100 (85/100) (3/10) 5 2 (1/2) (1/3) 1 1 0 0
      (by norm_num) (by norm_num) (by norm_num) (by norm_num) (by norm_num [st_price])⟩

/-- C6: both engines set the terminal value at node `j` (for `j = 0..steps`)
to exactly `max((100/K) * S_j, redemption_price)` with
`S_j = S0 * d^(steps-j) * u^j`. -/
theorem c6_terminal_values {α : Type} [LinearOrderedField α]
    (S0 K pure_bond_value call_price put_price redemption_price
      reset_threshold_pct p_reset net_asset_val u d p df : α) (steps j : ℕ)
    (hj : j ≤ steps) :
    (cb_layers S0 K pure_bond_value call_price put_price redemption_price u d p df steps
        0).getD j 0 =
      max (S0 * d ^ (steps - j) * u ^ j * (100 / K)) redemption_price ∧
    (cbr_layers S0 K pure_bond_value call_price put_price redemption_price
        reset_threshold_pct p_reset net_asset_val u d p df steps 0).getD j 0 =
      max (S0 * d ^ (steps - j) * u ^ j * (100 / K)) redemption_price := by
  constructor
  · simp only [cb_layers, run_layers]
    rw [terminal_values_getD S0 K u d redemption_price steps j hj]
    simp [conv_value, st_price]
  · simp only [cbr_layers, run_layers]
    rw [terminal_values_getD S0 K u d redemption_price steps j hj]
    simp [conv_value, st_price]

/-- C6, witnessed at a concrete input: the upper terminal node of a
one-step lattice. -/
theorem c6_terminal_values_witness :
    ((1:ℕ) ≤ 1) ∧
    ((cb_layers (100:ℚ) 100 90 150 70 100 2 (1/2) (1/3) 1 1 0).getD 1 0 =
      max ((100:ℚ) * (1/2) ^ (1 - 1) * 2 ^ 1 * (100 / 100)) 100 ∧
    (cbr_layers (100:ℚ) 100 90 150 70 100 (85/100) (3/10) 5 2 (1/2) (1/3) 1 1
        0).getD 1 0 =
      max ((100:ℚ) * (1/2) ^ (1 - 1) * 2 ^ 1 * (100 / 100)) 100) :=
  ⟨by norm_num,
    c6_terminal_values 100 100 90 150 70 100 (85/100) (3/10) 5 2 (1/2) (1/3) 1 1 1
      (by norm_num)⟩

/-- C7: at each backward-induction step `i` (from `steps - 1` down to `0`)
of both engines, the pre-clause continuation vector is obtained from the
fully adjusted step-`(i+1)` vector (the layer after `steps - i - 1`
iterations): it has length `i + 1`, its entry `j` is
`(p * value[j+1] + (1-p) * value[j]) * df`, and the step-`i` layer is
exactly the per-node clause pass applied to it. -/
theorem c7_expectation_step {α : Type} [LinearOrderedField α]
    (S0 K pure_bond_value call_price put_price redemption_price
      reset_threshold_pct p_reset net_asset_val u d p df : α) (steps i j : ℕ)
    (hi : i < steps) (hj : j ≤ i) :
    ((expect_step p df (cb_layers S0 K pure_bond_value call_price put_price redemption_price
        u d p df steps (steps - i - 1))).length = i + 1 ∧
      (expect_step p df (cb_layers S0 K pure_bond_value call_price put_price redemption_price
          u d p df steps (steps - i - 1))).getD j 0 =
        (p * (cb_layers S0 K pure_bond_value call_price put_price redemption_price
            u d p df steps (steps - i - 1)).getD (j + 1) 0 +
          (1 - p) * (cb_layers S0 K pure_bond_value call_price put_price redemption_price
            u d p df steps (steps - i - 1)).getD j 0) * df ∧
      cb_layers S0 K pure_bond_value call_price put_price redemption_price u d p df steps
          (steps - i) =
        overlay_vec
          (cb_node S0 K pure_bond_value call_price put_price redemption_price u d steps i) 0
          (expect_step p df (cb_layers S0 K pure_bond_value call_price put_price
            redemption_price u d p df steps (steps - i - 1)))) ∧
    ((expect_step p df (cbr_layers S0 K pure_bond_value call_price put_price redemption_price
        reset_threshold_pct p_reset net_asset_val u d p df steps (steps - i - 1))).length =
        i + 1 ∧
      (expect_step p df (cbr_layers S0 K pure_bond_value call_price put_price redemption_price
          reset_threshold_pct p_reset net_asset_val u d p df steps (steps - i - 1))).getD j 0 =
        (p * (cbr_layers S0 K pure_bond_value call_price put_price redemption_price
            reset_threshold_pct p_reset net_asset_val u d p df steps (steps - i - 1)).getD
            (j + 1) 0 +
          (1 - p) * (cbr_layers S0 K pure_bond_value call_price put_price redemption_price
            reset_threshold_pct p_reset net_asset_val u d p df steps (steps - i - 1)).getD
            j 0) * df ∧
      cbr_layers S0 K pure_bond_value call_price put_price redemption_price
          reset_threshold_pct p_reset net_asset_val u d p df steps (steps - i) =
        overlay_vec
          (cbr_node S0 K pure_bond_value call_price put_price redemption_price
            reset_threshold_pct p_reset net_asset_val u d steps i) 0
          (expect_step p df (cbr_layers S0 K pure_bond_value call_price put_price
            redemption_price reset_threshold_pct p_reset net_asset_val u d p df steps
            (steps - i - 1)))) := by
  have hl1 : (cb_layers S0 K pure_bond_value call_price put_price redemption_price
      u d p df steps (steps - i - 1)).length = i + 2 := by
    simp only [cb_layers]
    rw [run_layers_length, terminal_values_length]
    omega
  have hl2 : (cbr_layers S0 K pure_bond_value call_price put_price redemption_price
      reset_threshold_pct p_reset net_asset_val u d p df steps (steps - i - 1)).length =
      i + 2 := by
    simp only [cbr_layers]
    rw [run_layers_length, terminal_values_length]
    omega
  refine ⟨⟨?_, ?_, ?_⟩, ?_, ?_, ?_⟩
  · rw [expect_step_length, hl1]
    omega
  · exact expect_step_getD p df _ j (by omega)
  · simp only [cb_layers]
    nth_rewrite 1 [show steps - i = (steps - i - 1) + 1 from by omega]
    simp only [run_layers]
    rw [show steps - (steps - i - 1 + 1) = i from by omega]
  · rw [expect_step_length, hl2]
    omega
  · exact expect_step_getD p df _ j (by omega)
  · simp only [cbr_layers]
    nth_rewrite 1 [show steps - i = (steps - i - 1) + 1 from by omega]
    simp only [run_layers]
    rw [show steps - (steps - i - 1 + 1) = i from by omega]

/-- C7, witnessed at a concrete input: the single step of a one-step
lattice. -/
theorem c7_expectation_step_witness :
    ((0:ℕ) < 1 ∧ (0:ℕ) ≤ 0) ∧
    (((expect_step (1/3 : ℚ) 1 (cb_layers (100:ℚ) 100 90 150 70 100 2 (1/2) (1/3) 1 1
        (1 - 0 - 1))).length = 0 + 1 ∧
      (expect_step (1/3 : ℚ) 1 (cb_layers (100:ℚ) 100 90 150 70 100 2 (1/2) (1/3) 1 1
          (1 - 0 - 1))).getD 0 0 =
        (1/3 * (cb_layers (100:ℚ) 100 90 150 70 100 2 (1/2) (1/3) 1 1
            (1 - 0 - 1)).getD (0 + 1) 0 +
          (1 - 1/3) * (cb_layers (100:ℚ) 100 90 150 70 100 2 (1/2) (1/3) 1 1
            (1 - 0 - 1)).getD 0 0) * 1 ∧
      cb_layers (100:ℚ) 100 90 150 70 100 2 (1/2) (1/3) 1 1 (1 - 0) =
        overlay_vec (cb_node (100:ℚ) 100 90 150 70 100 2 (1/2) 1 0) 0
          (expect_step (1/3 : ℚ) 1 (cb_layers (100:ℚ) 100 90 150 70 100 2 (1/2) (1/3) 1 1
            (1 - 0 - 1)))) ∧
    ((expect_step (1/3 : ℚ) 1 (cbr_layers (100:ℚ) 100 90 150 70 100 (85/100) (3/10) 5 2
        (1/2) (1/3) 1 1 (1 - 0 - 1))).length = 0 + 1 ∧
      (expect_step (1/3 : ℚ) 1 (cbr_layers (100:ℚ) 100 90 150 70 100 (85/100) (3/10) 5 2
          (1/2) (1/3) 1 1 (1 - 0 - 1))).getD 0 0 =
        (1/3 * (cbr_layers (100:ℚ) 100 90 150 70 100 (85/100) (3/10) 5 2 (1/2) (1/3) 1 1
            (1 - 0 - 1)).getD (0 + 1) 0 +
          (1 - 1/3) * (cbr_layers (100:ℚ) 100 90 150 70 100 (85/100) (3/10) 5 2 (1/2)
            (1/3) 1 1 (1 - 0 - 1)).getD 0 0) * 1 ∧
      cbr_layers (100:ℚ) 100 90 150 70 100 (85/100) (3/10) 5 2 (1/2) (1/3) 1 1 (1 - 0) =
        overlay_vec (cbr_node (100:ℚ) 100 90 150 70 100 (85/100) (3/10) 5 2 (1/2) 1 0) 0
          (expect_step (1/3 : ℚ) 1 (cbr_layers (100:ℚ) 100 90 150 70 100 (85/100) (3/10) 5
            2 (1/2) (1/3) 1 1 (1 - 0 - 1))))) :=
  ⟨⟨by norm_num, by norm_num⟩,
    c7_expectation_step 100 100 90 150 70 100 (85/100) (3/10) 5 2 (1/2) (1/3) 1 1 0 0
      (by norm_num) (by norm_num)⟩

/-- C8: with every parameter fixed except the reset probability, and with
the lattice satisfying the no-arbitrage invariant `0 ≤ p ≤ 1` and a
non-negative discount factor, the step-0 value of `calculate_cb_with_reset`
is monotone non-decreasing in `p_reset` on `[0, 1]`: it moves from the
no-reset value at `p_reset = 0` toward the all-reset value at `p_reset = 1`
with no oscillation. -/
theorem c8_reset_monotone {α : Type} [LinearOrderedField α]
    (S0 K pure_bond_value call_price put_price redemption_price
      reset_threshold_pct net_asset_val u d p df : α) (steps : ℕ) {p1 p2 : α}
    (hp0 : 0 ≤ p) (hp1 : p ≤ 1) (hdf : 0 ≤ df)
    (h1 : 0 ≤ p1) (h12 : p1 ≤ p2) (h2 : p2 ≤ 1) :
    cb_reset_core S0 K pure_bond_value call_price put_price redemption_price
        reset_threshold_pct p1 net_asset_val u d p df steps ≤
      cb_reset_core S0 K pure_bond_value call_price put_price redemption_price
        reset_threshold_pct p2 net_asset_val u d p df steps := by
  simp only [cb_reset_core, cbr_layers]
  exact run_layers_getD_le steps _ _ _ p df
    (fun i j x1 x2 hx => cbr_node_le_cbr_node S0 K pure_bond_value call_price put_price
      redemption_price reset_threshold_pct net_asset_val u d steps i j hx h1 h12 h2)
    hp0 hp1 hdf steps 0

/-- C8, witnessed at a concrete input: `p_reset = 0` versus `p_reset = 4/5`
on a one-step lattice whose root node triggers the reset. -/
theorem c8_reset_monotone_witness :
    ((0:ℚ) ≤ 1/3 ∧ (1/3:ℚ) ≤ 1 ∧ (0:ℚ) ≤ 1 ∧ (0:ℚ) ≤ 0 ∧ (0:ℚ) ≤ 4/5 ∧ (4/5:ℚ) ≤ 1) ∧
    cb_reset_core (60:ℚ) 100 90 150 70 100 (85/100) 0 5 2 (1/2) (1/3) 1 1 ≤
      cb_reset_core (60:ℚ) 100 90 150 70 100 (85/100) (4/5) 5 2 (1/2) (1/3) 1 1 :=
  ⟨⟨by norm_num, by norm_num, by norm_num, by norm_num, by norm_num, by norm_num⟩,
    c8_reset_monotone 60 100 90 150 70 100 (85/100) 5 2 (1/2) (1/3) 1 1
      (by norm_num) (by norm_num) (by norm_num) (by norm_num) (by norm_num) (by norm_num)⟩

/-- C9: with `steps = 1`, `calculate_cb_value` returns the same result for
any two values of `pure_bond_value`: the only clause pass runs at step
`i = 0`, where the ramp bond floor `pure_bond_value / steps * i` is `0`, so
`pure_bond_value` has no influence on the output. -/
theorem c9_pure_bond_value_no_influence (S0 K r sigma T pb1 pb2
    call_price put_price redemption_price : ℝ) :
    calculate_cb_value S0 K r sigma T 1 pb1 call_price put_price redemption_price =
      calculate_cb_value S0 K r sigma T 1 pb2 call_price put_price redemption_price ∧
    ramp_floor pb1 1 0 = 0 := by
  constructor
  · simp only [calculate_cb_value]
    simp [cb_value_core, cb_layers, run_layers, terminal_values, List.range_succ,
      expect_step, overlay_vec, cb_node, ramp_floor]
  · simp [ramp_floor]

/-- C10: for any `0 ≤ p_reset`, the reset sub-step of
`calculate_cb_with_reset` never decreases a node's value (the blend is
performed only when the post-reset value exceeds the current value), and it
leaves the value unchanged whenever the post-reset value does not exceed
it. -/
theorem c10_reset_no_decrease {α : Type} [LinearOrderedField α]
    (K reset_threshold_pct p_reset net_asset_val s x : α) (hpr : 0 ≤ p_reset) :
    x ≤ reset_adjust K reset_threshold_pct p_reset net_asset_val s x ∧
    (100 / max (s * (102 / 100)) net_asset_val * s * (120 / 100) ≤ x →
      reset_adjust K reset_threshold_pct p_reset net_asset_val s x = x) := by
  constructor
  · simp only [reset_adjust]
    split_ifs with h1 h2
    · have h3 := mul_nonneg hpr (sub_nonneg.mpr h2.le)
      nlinarith [h3]
    · exact le_refl x
    · exact le_refl x
  · intro hge
    simp only [reset_adjust]
    split_ifs with h1 h2
    · exact absurd hge (not_le.mpr h2)
    · rfl
    · rfl

/-- C10, witnessed at a concrete input: a triggered node (`s = 60` below
the trigger `85`) whose incoming value `100` lies below the post-reset
value, so the blend strictly helps; and the no-op guard instantiated. -/
theorem c10_reset_no_decrease_witness :
    ((0:ℚ) ≤ 3/10) ∧
    ((100:ℚ) ≤ reset_adjust 100 (85/100) (3/10) 5 60 100 ∧
    (100 / max ((60:ℚ) * (102 / 100)) 5 * 60 * (120 / 100) ≤ 100 →
      reset_adjust (100:ℚ) (85/100) (3/10) 5 60 100 = 100)) :=
  ⟨by norm_num, c10_reset_no_decrease 100 (85/100) (3/10) 5 60 100 (by norm_num)⟩
